import Mathlib

/-!
Shallow embedding of the worker loop in src/joycon/communication.rs of
slimevr-wrangler, together with proofs about the properties stated of it.

Modelling conventions:
- f64 arithmetic is modelled by the real numbers; quaternions by
  Mathlib real quaternions (the nalgebra Hamilton product agrees with the
  Mathlib product).
- The UDP socket is modelled by returning the list of packets the code
  builds and sends; the send oracle variant (parse_message_sends) models the
  Result of each send_to call, with none standing for the panic an unwrap
  of a failed send causes.
- The Rust HashMap is modelled by an association list kept in insertion
  order, together with an arbitrary function hashOrder standing for the
  unspecified iteration order of the map.
- Instant timestamps are modelled by Nat values at one-second granularity;
  elapsed().as_secs() is Nat subtraction.
- The imu module (orientation integrator), the settings module and the
  protocol packet codec are not part of the embedded sources; they are
  modelled from the spec as abstract capabilities (see the doc comments).
-/

/-- Modelled from the spec: descriptive design/variant metadata of a
controller (module joycon, not under src/); its content is opaque to
the worker loop. -/
structure JoyconDesign where
  tag : Nat

/-- Modelled from the spec: one raw axis frame of a Data message (module
imu, not under src/); only the acceleration components are read directly
by the worker loop. -/
structure JoyconAxisData where
  accel_x : ℝ
  accel_y : ℝ
  accel_z : ℝ

/-- Modelled from the spec: the orientation integrator state (module imu,
not under src/); it owns the current orientation quaternion. -/
structure Imu where
  rotation : Quaternion ℝ

/-- Modelled from the spec: fresh fusion state, Imu::new() (module imu,
not under src/); the concrete start orientation is irrelevant here. -/
noncomputable def Imu.new : Imu := ⟨1⟩

/-- struct Device of communication.rs. The u8 sensor id is modelled as a
Nat that is reduced mod 256 at the single place the source casts with
as (see parse_message). -/
structure Device where
  imu : Imu
  design : JoyconDesign
  id : Nat

/-- struct JoyconStatus of communication.rs. -/
structure JoyconStatus where
  connected : Bool
  rotation : ℝ × ℝ × ℝ
  design : JoyconDesign
  mount_rotation : Int
  serial_number : String

/-- struct JoyconDeviceInfo of communication.rs. -/
structure JoyconDeviceInfo where
  serial_number : String
  design : JoyconDesign

/-- struct JoyconData of communication.rs; imu_data is the fixed-size
array [JoyconAxisData; 3]. -/
structure JoyconData where
  serial_number : String
  imu_data : JoyconAxisData × JoyconAxisData × JoyconAxisData

/-- enum ChannelInfo of communication.rs. -/
inductive ChannelInfo where
  | Connected (info : JoyconDeviceInfo)
  | Data (data : JoyconData)

/-- The outbound wire packets the loop builds (protocol::PacketType
constructors used by communication.rs), with the field values the source
passes. The binary codec itself is external and not modelled. -/
inductive Packet where
  | handshake (packet_id board imu mcu_type : Nat) (imu_info : Nat × Nat × Nat)
      (build : Nat) (firmware : String) (mac_address : List Nat)
  | sensorInfo (packet_id sensor_id sensor_status sensor_type : Nat)
  | rotationData (packet_id sensor_id data_type : Nat) (quat : Quaternion ℝ)
      (calibration_info : Nat)
  | acceleration (packet_id : Nat) (vector : ℝ × ℝ × ℝ) (sensor_id : Option Nat)

/-- Modelled from the spec: the configuration snapshot (module settings,
not under src/); only the per-serial mount rotation offset in integer
degrees is consumed by the embedded code. -/
abbrev WranglerSettings : Type := String → Int

/-- The configured mount rotation offset of a serial, in integer degrees
(settings.joycon_rotation_get). -/
def WranglerSettings.joycon_rotation_get (w : WranglerSettings) (serial : String) : Int :=
  w serial

/-- Conversion of the i32 offset, cast to f64, to radians
(f64::to_radians): deg * (pi / 180). -/
noncomputable def toRadians (deg : Int) : ℝ := (deg : ℝ) * (Real.pi / 180)

/-- nalgebra UnitQuaternion::from_axis_angle(&Vector3::z_axis(), rad):
the unit quaternion of a rotation by rad about the z axis,
(w, x, y, z) = (cos (rad/2), 0, 0, sin (rad/2)). -/
noncomputable def zRotQuat (rad : ℝ) : Quaternion ℝ :=
  ⟨Real.cos (rad / 2), 0, 0, Real.sin (rad / 2)⟩

/-- The let rotated_quat of parse_message: compose with the mount offset
rotation only when the configured offset is strictly positive. -/
noncomputable def rotatedQuat (raw : Quaternion ℝ) (joycon_rotation : Int) : Quaternion ℝ :=
  if joycon_rotation > 0 then raw * zRotQuat (toRadians joycon_rotation) else raw

/-- struct Xyz of communication.rs. -/
structure Xyz where
  x : ℝ
  y : ℝ
  z : ℝ

/-- The let gravity of calc_acceleration: the gravity vector implied by the
raw orientation quaternion, with nalgebra coords order
(x, y, z, w) = (imI, imJ, imK, re). -/
noncomputable def gravity (rotation : Quaternion ℝ) : Xyz :=
  let x := rotation.imI
  let y := rotation.imJ
  let z := rotation.imK
  let w := rotation.re
  ⟨2 * ((-x) * (-z) - w * y),
   -2 * (w * (-x) + y * (-z)),
   w * w - x * x - y * y + z * z⟩

/-- fn calc_acceleration of communication.rs. -/
noncomputable def calc_acceleration (rotation : Quaternion ℝ) (axisdata : JoyconAxisData)
    (rad_rotation : ℝ) : Xyz :=
  let g := gravity rotation
  let vector : Xyz := ⟨axisdata.accel_x - g.x, axisdata.accel_y - g.y, axisdata.accel_z - g.z⟩
  ⟨vector.x * Real.cos rad_rotation - vector.y * Real.sin rad_rotation,
   vector.x * Real.sin rad_rotation + vector.y * Real.cos rad_rotation,
   vector.z⟩

/-- Modelled from the spec: the euclidean magnitude of a linear
acceleration vector (the spec states the computed linear acceleration
magnitude is 0 when the sample equals gravity). -/
noncomputable def Xyz.magnitude (v : Xyz) : ℝ := Real.sqrt (v.x ^ 2 + v.y ^ 2 + v.z ^ 2)

/-- The SensorInfo announce packet of a device (Device::handshake of
communication.rs). -/
def Device.handshake (d : Device) : Packet := .sensorInfo 0 d.id 1 0

/-- fn slime_handshake of communication.rs: the fixed handshake broadcast
packet. -/
def slime_handshake : Packet :=
  .handshake 0 0 0 0 (0, 0, 0) 0 "slimevr-wrangler" [0x00, 0x0F, 0x00, 0x0F, 0x00, 0x0F]

/-- The key list of the registry, in insertion (first-seen) order. -/
def keys (devices : List (String × Device)) : List String := devices.map Prod.fst

/-- Whether the registry holds a serial (devices.contains_key). -/
def containsDevice (devices : List (String × Device)) (serial : String) : Bool :=
  devices.any fun p => p.1 == serial

/-- Lookup of the entry of a serial (devices.get / devices.get_mut). -/
def findDevice (devices : List (String × Device)) (serial : String) : Option Device :=
  (devices.find? fun p => p.1 == serial).map Prod.snd

/-- The re-registration branch of parse_message:
devices.get_mut(serial).imu = Imu::new(), everything else untouched. -/
noncomputable def resetImu (devices : List (String × Device)) (serial : String) : List (String × Device) :=
  devices.map fun p => if p.1 == serial then (p.1, ⟨Imu.new, p.2.design, p.2.id⟩) else p

/-- Writing back the mutated device of the Data branch of parse_message
(the in-place mutation through get_mut). -/
def setDevice (devices : List (String × Device)) (serial : String) (device : Device) :
    List (String × Device) :=
  devices.map fun p => if p.1 == serial then (p.1, device) else p

/-- The projection of a registry that registration must never change after
first assignment: serial, sensor id and stored design of every entry. -/
def idsDesigns (devices : List (String × Device)) : List (String × Nat × JoyconDesign) :=
  devices.map fun p => (p.1, p.2.id, p.2.design)

/-- fn parse_message of communication.rs. The socket and address arguments
are replaced by the returned packet list (all sends succeed here; see
parse_message_sends for the fallible variant); update is the abstract
Imu::update capability of the imu module (not under src/). -/
noncomputable def parse_message (msg : ChannelInfo) (devices : List (String × Device))
    (settings : WranglerSettings) (update : Imu → JoyconAxisData → Imu) :
    List (String × Device) × List Packet :=
  match msg with
  | .Connected info =>
    if containsDevice devices info.serial_number then
      (resetImu devices info.serial_number, [])
    else
      let device : Device := ⟨Imu.new, info.design, devices.length % 256⟩
      (devices ++ [(info.serial_number, device)], [device.handshake])
  | .Data data =>
    match findDevice devices data.serial_number with
    | none => (devices, [])
    | some device =>
      let imu2 :=
        update (update (update device.imu data.imu_data.1) data.imu_data.2.1) data.imu_data.2.2
      let joycon_rotation := settings.joycon_rotation_get data.serial_number
      let rad_rotation := toRadians joycon_rotation
      let rotation_packet :=
        Packet.rotationData 0 device.id 1 (rotatedQuat imu2.rotation joycon_rotation) 0
      let acc := calc_acceleration imu2.rotation data.imu_data.2.2 rad_rotation
      let acceleration_packet := Packet.acceleration 0 (acc.x, acc.y, acc.z) (some device.id)
      (setDevice devices data.serial_number ⟨imu2, device.design, device.id⟩,
       [rotation_packet, acceleration_packet])

/-- fn parse_message with the socket sends made explicit: sendOk n is the
success of the n-th send_to call of this invocation; a failed send makes
the unwrap panic, modelled as none (the process aborts). -/
noncomputable def parse_message_sends (msg : ChannelInfo) (devices : List (String × Device))
    (settings : WranglerSettings) (update : Imu → JoyconAxisData → Imu)
    (sendOk : Nat → Bool) : Option (List (String × Device) × List Packet) :=
  match msg with
  | .Connected info =>
    if containsDevice devices info.serial_number then
      some (resetImu devices info.serial_number, [])
    else
      let device : Device := ⟨Imu.new, info.design, devices.length % 256⟩
      if sendOk 0 then some (devices ++ [(info.serial_number, device)], [device.handshake])
      else none
  | .Data data =>
    match findDevice devices data.serial_number with
    | none => some (devices, [])
    | some device =>
      let imu2 :=
        update (update (update device.imu data.imu_data.1) data.imu_data.2.1) data.imu_data.2.2
      let joycon_rotation := settings.joycon_rotation_get data.serial_number
      let rad_rotation := toRadians joycon_rotation
      let rotation_packet :=
        Packet.rotationData 0 device.id 1 (rotatedQuat imu2.rotation joycon_rotation) 0
      let acc := calc_acceleration imu2.rotation data.imu_data.2.2 rad_rotation
      let acceleration_packet := Packet.acceleration 0 (acc.x, acc.y, acc.z) (some device.id)
      if sendOk 0 then
        if sendOk 1 then
          some (setDevice devices data.serial_number ⟨imu2, device.design, device.id⟩,
            [rotation_packet, acceleration_packet])
        else none
      else none

/-- The order devices.values().sorted_by_key(|d| d.id) produces. -/
def devLE (a b : Device) : Prop := a.id ≤ b.id

instance : DecidableRel devLE := fun a b => inferInstanceAs (Decidable (a.id ≤ b.id))

instance : IsTotal Device devLE := ⟨fun a b => Nat.le_total a.id b.id⟩

instance : IsTrans Device devLE := ⟨fun _ _ _ h₁ h₂ => Nat.le_trans h₁ h₂⟩

/-- itertools sorted_by_key(|d| d.id) over the values of the registry. -/
def sortById (l : List Device) : List Device := l.insertionSort devLE

/-- The mutable state of fn main_thread across loop iterations. -/
structure LoopState where
  devices : List (String × Device)
  connected : Bool
  last_handshake : Nat
  last_ping : Nat
  buf : List Nat

/-- Everything one loop iteration sends or publishes. -/
structure IterOutput where
  announce : List Packet
  echoes : List (List Nat)
  dataPackets : List Packet
  snapshot : Option (List JoyconStatus)

/-- The handshake retry condition of the loop:
!connected && last_handshake.elapsed().as_secs() >= 3. -/
def handshakeFires (st : LoopState) (now : Nat) : Bool :=
  !st.connected && decide (3 ≤ now - st.last_handshake)

/-- Receiving a datagram (socket.recv into buf): the received bytes
overwrite the matching prefix of the persistent 512 byte buffer; the rest
keeps its old bytes. -/
def writeBuf (d buf : List Nat) : List Nat := d ++ buf.drop d.length

/-- One pass of the datagram drain loop body of main_thread: set connected,
and when the buffer parses as a Ping packet, reset last_ping and echo
exactly buf[0..len] back. parsePing models PacketType::from_bytes
succeeding with PacketType::Ping (the codec is external). Result:
(connected, last_ping, buf, echoed bytes if any). -/
def drainStep (connected : Bool) (last_ping now : Nat) (buf : List Nat)
    (parsePing : List Nat → Bool) (d : List Nat) : Bool × Nat × List Nat × Option (List Nat) :=
  let buf2 := writeBuf d buf
  if parsePing buf2 then (true, now, buf2, some (buf2.take d.length))
  else (true, last_ping, buf2, none)

/-- The while let Ok(len) = socket.recv drain loop over all currently
pending datagrams. Result: (connected, last_ping, buf, echoes sent). -/
def drainAll (connected : Bool) (last_ping now : Nat) (buf : List Nat)
    (parsePing : List Nat → Bool) (datagrams : List (List Nat)) :
    Bool × Nat × List Nat × List (List Nat) :=
  datagrams.foldl
    (fun acc d =>
      match drainStep acc.1 acc.2.1 now acc.2.2.1 parsePing d with
      | (c2, lp2, b2, e) => (c2, lp2, b2, acc.2.2.2 ++ e.toList))
    (connected, last_ping, buf, [])

/-- The receive.try_iter() drain of main_thread: parse_message over every
queued input message, in arrival order. -/
noncomputable def processMessages (msgs : List ChannelInfo) (devices : List (String × Device))
    (settings : WranglerSettings) (update : Imu → JoyconAxisData → Imu) :
    List (String × Device) × List Packet :=
  msgs.foldl
    (fun acc msg =>
      match parse_message msg acc.1 settings update with
      | (d2, ps) => (d2, acc.2 ++ ps))
    (devices, [])

/-- The status snapshot built by main_thread for the entries it iterates,
in the given order; euler is the abstract Imu::euler_angles_deg capability
of the imu module (not under src/). Note the connected field is the
literal true of the source. -/
def buildStatuses (euler : Imu → ℝ × ℝ × ℝ) (settings : WranglerSettings)
    (entries : List (String × Device)) : List JoyconStatus :=
  entries.map fun p => ⟨true, euler p.2.imu, p.2.design, settings.joycon_rotation_get p.1, p.1⟩

/-- One iteration of the main_thread loop. hashOrder stands for the
unspecified iteration order of the std HashMap: whenever the code iterates
the map, it sees hashOrder of the insertion-ordered entry list (any
permutation). now is the Instant of this iteration at one-second
granularity; datagrams are the pending inbound datagrams, msgs the queued
input messages. -/
noncomputable def iterate (update : Imu → JoyconAxisData → Imu) (euler : Imu → ℝ × ℝ × ℝ)
    (parsePing : List Nat → Bool) (hashOrder : List (String × Device) → List (String × Device))
    (settings : WranglerSettings) (st : LoopState) (now : Nat)
    (datagrams : List (List Nat)) (msgs : List ChannelInfo) : LoopState × IterOutput :=
  let fire := handshakeFires st now
  let last_handshake2 := if fire then now else st.last_handshake
  let announce :=
    if fire then
      slime_handshake :: (sortById ((hashOrder st.devices).map Prod.snd)).map Device.handshake
    else []
  match drainAll st.connected st.last_ping now st.buf parsePing datagrams with
  | (c2, lp2, buf2, echoes) =>
    let connected2 := if c2 && decide (3 ≤ now - lp2) then false else c2
    match processMessages msgs st.devices settings update with
    | (devices2, dataPackets) =>
      let snapshot :=
        if msgs.isEmpty then none
        else some (buildStatuses euler settings (hashOrder devices2))
      (⟨devices2, connected2, last_handshake2, lp2, buf2⟩,
       ⟨announce, echoes, dataPackets, snapshot⟩)

/-- A fixed design value for bulk registration scenarios. -/
def dz : JoyconDesign := ⟨0⟩

/-- Registration of a list of serials in order, each through the Connected
branch of parse_message (settings and update are irrelevant there). -/
noncomputable def registerAll (serials : List String) (devices : List (String × Device)) :
    List (String × Device) :=
  serials.foldl
    (fun ds s => (parse_message (.Connected ⟨s, dz⟩) ds (fun _ => 0) (fun i _ => i)).1)
    devices

/-- The registry produced by registering fresh serials starting when the
registry already holds n entries. -/
noncomputable def seqEntries : Nat → List String → List (String × Device)
  | _, [] => []
  | n, s :: ss => (s, ⟨Imu.new, dz, n % 256⟩) :: seqEntries (n + 1) ss

/-- A family of pairwise distinct serial strings. -/
def repSerial (n : Nat) : String := String.mk (List.replicate n 'a')

/-- A list of 256 pairwise distinct serials. -/
def serialsW : List String := (List.range 256).map repSerial

/-! ## Registry lemmas -/

theorem containsDevice_eq_true_iff (devices : List (String × Device)) (s : String) :
    containsDevice devices s = true ↔ s ∈ keys devices := by
  simp [containsDevice, keys, List.any_eq_true, List.mem_map]

theorem containsDevice_eq_false (devices : List (String × Device)) (s : String)
    (h : s ∉ keys devices) : containsDevice devices s = false := by
  rw [← Bool.not_eq_true, containsDevice_eq_true_iff]
  exact h

theorem parse_message_connected_fresh (devices : List (String × Device))
    (info : JoyconDeviceInfo) (settings : WranglerSettings)
    (update : Imu → JoyconAxisData → Imu) (h : info.serial_number ∉ keys devices) :
    parse_message (.Connected info) devices settings update =
      (devices ++ [(info.serial_number, ⟨Imu.new, info.design, devices.length % 256⟩)],
       [Packet.sensorInfo 0 (devices.length % 256) 1 0]) := by
  simp [parse_message, containsDevice_eq_false devices info.serial_number h, Device.handshake]

theorem parse_message_connected_known (devices : List (String × Device))
    (info : JoyconDeviceInfo) (settings : WranglerSettings)
    (update : Imu → JoyconAxisData → Imu) (h : info.serial_number ∈ keys devices) :
    parse_message (.Connected info) devices settings update =
      (resetImu devices info.serial_number, []) := by
  simp [parse_message, (containsDevice_eq_true_iff devices info.serial_number).mpr h]

theorem idsDesigns_resetImu (devices : List (String × Device)) (s : String) :
    idsDesigns (resetImu devices s) = idsDesigns devices := by
  simp only [idsDesigns, resetImu, List.map_map]
  refine List.map_congr_left ?_
  intro p _
  by_cases h : (p.1 == s) = true
  · simp [Function.comp, h]
  · simp [Function.comp, h]

theorem setDevice_not_mem (devices : List (String × Device)) (s : String) (dev : Device)
    (h : s ∉ keys devices) : setDevice devices s dev = devices := by
  induction devices with
  | nil => rfl
  | cons p rest ih =>
    simp only [keys, List.map_cons, List.mem_cons, not_or] at h
    have hb : (p.1 == s) = false := beq_eq_false_iff_ne.mpr fun he => h.1 he.symm
    have h2 := ih (by simpa [keys] using h.2)
    simp only [setDevice, List.map_cons] at h2 ⊢
    simp [hb]
    simpa using h2

theorem findDevice_cons (p : String × Device) (rest : List (String × Device)) (s : String) :
    findDevice (p :: rest) s = if p.1 == s then some p.2 else findDevice rest s := by
  by_cases h : (p.1 == s) = true
  · simp [findDevice, List.find?_cons, h]
  · simp only [Bool.not_eq_true] at h
    simp [findDevice, List.find?_cons, h]

theorem idsDesigns_parse_data (devices : List (String × Device)) (dd : JoyconData)
    (settings : WranglerSettings) (update : Imu → JoyconAxisData → Imu)
    (hnd : (keys devices).Nodup) :
    idsDesigns ((parse_message (.Data dd) devices settings update).1) = idsDesigns devices := by
  cases hf : findDevice devices dd.serial_number with
  | none => simp [parse_message, hf]
  | some dev =>
    simp only [parse_message, hf]
    induction devices with
    | nil => rfl
    | cons p rest ih =>
      rw [findDevice_cons] at hf
      simp only [keys, List.map_cons, List.nodup_cons] at hnd
      by_cases hb : (p.1 == dd.serial_number) = true
      · rw [if_pos hb] at hf
        have hdev : dev = p.2 := (Option.some.inj hf).symm
        have hs : p.1 = dd.serial_number := beq_iff_eq.mp hb
        have hrest : dd.serial_number ∉ keys rest := by
          rw [← hs]
          simpa [keys] using hnd.1
        have hset := setDevice_not_mem rest dd.serial_number
            ⟨update (update (update dev.imu dd.imu_data.1) dd.imu_data.2.1) dd.imu_data.2.2,
             dev.design, dev.id⟩ hrest
        have h1 : setDevice (p :: rest) dd.serial_number
            ⟨update (update (update dev.imu dd.imu_data.1) dd.imu_data.2.1) dd.imu_data.2.2,
             dev.design, dev.id⟩ =
            (p.1, (⟨update (update (update dev.imu dd.imu_data.1) dd.imu_data.2.1) dd.imu_data.2.2,
             dev.design, dev.id⟩ : Device)) :: rest := by
          simp only [setDevice, List.map_cons] at hset ⊢
          simp [hb]
          simpa using hset
        rw [h1]
        simp [idsDesigns, hdev]
      · rw [if_neg hb] at hf
        have h3 := ih (by simpa [keys] using hnd.2) hf
        have h1 : setDevice (p :: rest) dd.serial_number
            ⟨update (update (update dev.imu dd.imu_data.1) dd.imu_data.2.1) dd.imu_data.2.2,
             dev.design, dev.id⟩ =
            p :: setDevice rest dd.serial_number
              ⟨update (update (update dev.imu dd.imu_data.1) dd.imu_data.2.1) dd.imu_data.2.2,
               dev.design, dev.id⟩ := by
          simp only [setDevice, List.map_cons, if_neg hb]
        rw [h1]
        simp only [idsDesigns, List.map_cons] at h3 ⊢
        rw [h3]

/-! ## Bulk registration lemmas -/

theorem keys_append (l₁ l₂ : List (String × Device)) : keys (l₁ ++ l₂) = keys l₁ ++ keys l₂ := by
  simp [keys]

theorem registerAll_fresh (serials : List String) (devices : List (String × Device))
    (hn : serials.Nodup) (hfresh : ∀ s ∈ serials, s ∉ keys devices) :
    registerAll serials devices = devices ++ seqEntries devices.length serials := by
  induction serials generalizing devices with
  | nil => simp [registerAll, seqEntries]
  | cons s ss ih =>
    simp only [registerAll, List.foldl_cons] at *
    rw [parse_message_connected_fresh devices ⟨s, dz⟩ (fun _ => 0) (fun i _ => i)
      (hfresh s (List.mem_cons_self s ss))]
    have hn2 := (List.nodup_cons.mp hn).2
    have hs2 := (List.nodup_cons.mp hn).1
    have hfresh2 : ∀ t ∈ ss, t ∉ keys (devices ++ [(s, ⟨Imu.new, dz, devices.length % 256⟩)]) := by
      intro t ht
      rw [keys_append]
      simp only [keys, List.map_cons, List.map_nil, List.mem_append, List.mem_singleton]
      rintro (h1 | h2)
      · exact hfresh t (List.mem_cons_of_mem s ht) h1
      · exact hs2 (h2 ▸ ht)
    have := ih (devices ++ [(s, ⟨Imu.new, dz, devices.length % 256⟩)]) hn2 hfresh2
    rw [this]
    simp [seqEntries, List.append_assoc]

theorem keys_seqEntries (n : Nat) (serials : List String) :
    keys (seqEntries n serials) = serials := by
  induction serials generalizing n with
  | nil => rfl
  | cons s ss ih => simp [seqEntries, keys] at ih ⊢; exact ih (n + 1)

theorem length_seqEntries (n : Nat) (serials : List String) :
    (seqEntries n serials).length = serials.length := by
  have := keys_seqEntries n serials
  simpa [keys] using congrArg List.length this

theorem ids_seqEntries (n : Nat) (serials : List String) :
    (seqEntries n serials).map (fun p => p.2.id) =
      (List.range serials.length).map (fun i => (n + i) % 256) := by
  induction serials generalizing n with
  | nil => rfl
  | cons s ss ih =>
    simp only [seqEntries, List.map_cons, List.length_cons, List.range_succ_eq_map,
      List.map_map]
    refine congrArg₂ _ (by simp) ?_
    rw [ih (n + 1)]
    refine List.map_congr_left ?_
    intro i _
    simp [Function.comp]
    ring_nf

theorem registerAll_nil_eq (serials : List String) (hn : serials.Nodup) :
    registerAll serials [] = seqEntries 0 serials := by
  simpa using registerAll_fresh serials [] hn (by simp [keys])

theorem repSerial_injective : Function.Injective repSerial := by
  intro a b h
  simpa [repSerial] using congrArg String.data h

theorem serialsW_nodup : serialsW.Nodup :=
  (List.nodup_range 256).map repSerial_injective

theorem repSerial256_not_mem : repSerial 256 ∉ serialsW := by
  intro h
  obtain ⟨n, hn, he⟩ := List.mem_map.mp h
  have := repSerial_injective he
  have := List.mem_range.mp hn
  omega

theorem serialsW_length : serialsW.length = 256 := by
  simp [serialsW]

/-! ## Claims C1 and C10: sensor id assignment -/

/-- Counterexample to claim C1 as stated: after 256 distinct serials have
registered, the next distinct serial is assigned sensor id 0, not the
registry size 256, because the source casts devices.len() to u8. -/
theorem sensor_id_not_registry_size_at_256 :
    (parse_message (.Connected ⟨repSerial 256, dz⟩) (registerAll serialsW [])
        (fun _ => 0) (fun i _ => i)).1 =
      registerAll serialsW [] ++ [(repSerial 256, ⟨Imu.new, dz, 0⟩)] ∧
    (registerAll serialsW []).length = 256 ∧ (0 : Nat) ≠ 256 := by
  have hreg := registerAll_nil_eq serialsW serialsW_nodup
  have hlen : (registerAll serialsW []).length = 256 := by
    rw [hreg, length_seqEntries, serialsW_length]
  have hnm : repSerial 256 ∉ keys (registerAll serialsW []) := by
    rw [hreg, keys_seqEntries]
    exact repSerial256_not_mem
  refine ⟨?_, hlen, by decide⟩
  have h := congrArg Prod.fst (parse_message_connected_fresh (registerAll serialsW [])
      ⟨repSerial 256, dz⟩ (fun _ => 0) (fun i _ => i) hnm)
  simp only at h
  rw [h, hlen]

/-- Claim C1 (amended: the assigned id is the registry size reduced
mod 256, the u8 cast of devices.len()): a fresh serial is registered
exactly once, with sensor id devices.len() as u8, and is announced; a
Connected message for a known serial only resets its fusion state to
Imu::new, changing no serial, sensor id or stored design; Data messages
also never change any serial, sensor id or stored design. -/
theorem registration_assigns_id_once_mod256 (devices : List (String × Device))
    (info : JoyconDeviceInfo) (dd : JoyconData) (settings : WranglerSettings)
    (update : Imu → JoyconAxisData → Imu) (hnd : (keys devices).Nodup) :
    (info.serial_number ∉ keys devices →
      parse_message (.Connected info) devices settings update =
        (devices ++ [(info.serial_number, ⟨Imu.new, info.design, devices.length % 256⟩)],
         [Packet.sensorInfo 0 (devices.length % 256) 1 0])) ∧
    (info.serial_number ∈ keys devices →
      parse_message (.Connected info) devices settings update =
        (resetImu devices info.serial_number, [])) ∧
    idsDesigns (resetImu devices info.serial_number) = idsDesigns devices ∧
    idsDesigns ((parse_message (.Data dd) devices settings update).1) = idsDesigns devices :=
  ⟨parse_message_connected_fresh devices info settings update,
   parse_message_connected_known devices info settings update,
   idsDesigns_resetImu devices info.serial_number,
   idsDesigns_parse_data devices dd settings update hnd⟩

/-- Witness for C1 (amended) at a concrete input: re-registering the known
serial B only resets its fusion state. -/
theorem registration_assigns_id_once_mod256_witness :
    (keys [("B", (⟨Imu.new, dz, 0⟩ : Device))]).Nodup ∧
    "B" ∈ keys [("B", (⟨Imu.new, dz, 0⟩ : Device))] ∧
    parse_message (.Connected ⟨"B", dz⟩) [("B", ⟨Imu.new, dz, 0⟩)] (fun _ => 0) (fun i _ => i) =
      (resetImu [("B", ⟨Imu.new, dz, 0⟩)] "B", []) := by
  refine ⟨by decide, by decide, ?_⟩
  exact (registration_assigns_id_once_mod256 [("B", ⟨Imu.new, dz, 0⟩)] ⟨"B", dz⟩
      ⟨"B", (⟨0, 0, 0⟩, ⟨0, 0, 0⟩, ⟨0, 0, 0⟩)⟩ (fun _ => 0) (fun i _ => i) (by decide)).2.1
    (by decide)

/-- Claim C10: a newly registered device gets sensor id
devices.len() mod 256 (the u8 as cast); after 256 distinct serials the ids
are exactly 0..255, and the serial that registers when the registry holds
256 devices receives id 0, which is already in use, so ids stop being
pairwise distinct at that point. -/
theorem sensor_id_truncation_u8 (serials : List String) (s : String) (d : JoyconDesign)
    (stg : WranglerSettings) (upd : Imu → JoyconAxisData → Imu)
    (h₁ : serials.Nodup) (h₂ : serials.length = 256) (h₃ : s ∉ serials) :
    (∀ (devices : List (String × Device)) (info : JoyconDeviceInfo),
        info.serial_number ∉ keys devices →
        (parse_message (.Connected info) devices stg upd).1 =
          devices ++ [(info.serial_number, ⟨Imu.new, info.design, devices.length % 256⟩)]) ∧
    (registerAll serials []).length = 256 ∧
    (registerAll serials []).map (fun p => p.2.id) = List.range 256 ∧
    (parse_message (.Connected ⟨s, d⟩) (registerAll serials []) stg upd).1 =
      registerAll serials [] ++ [(s, ⟨Imu.new, d, 0⟩)] ∧
    0 ∈ (registerAll serials []).map (fun p => p.2.id) := by
  have hreg := registerAll_nil_eq serials h₁
  have hlen : (registerAll serials []).length = 256 := by
    rw [hreg, length_seqEntries, h₂]
  have hids : (registerAll serials []).map (fun p => p.2.id) = List.range 256 := by
    rw [hreg, ids_seqEntries, h₂]
    have hp : ∀ i ∈ List.range 256, (0 + i) % 256 = i := by
      intro i hi
      have := List.mem_range.mp hi
      omega
    rw [List.map_congr_left hp]
    simp
  have hnm : s ∉ keys (registerAll serials []) := by
    rw [hreg, keys_seqEntries]
    exact h₃
  refine ⟨fun devices info h =>
      congrArg Prod.fst (parse_message_connected_fresh devices info stg upd h),
    hlen, hids, ?_, ?_⟩
  · have h := congrArg Prod.fst (parse_message_connected_fresh (registerAll serials [])
        ⟨s, d⟩ stg upd hnm)
    simp only at h
    rw [h, hlen]
  · rw [hids]
    simp

/-- Witness for C10 at a concrete input: 256 concrete distinct serials,
then one more fresh serial, which receives id 0. -/
theorem sensor_id_truncation_u8_witness :
    serialsW.Nodup ∧ serialsW.length = 256 ∧ repSerial 256 ∉ serialsW ∧
    (parse_message (.Connected ⟨repSerial 256, dz⟩) (registerAll serialsW [])
        (fun _ => 1) (fun i _ => i)).1 =
      registerAll serialsW [] ++ [(repSerial 256, ⟨Imu.new, dz, 0⟩)] :=
  ⟨serialsW_nodup, serialsW_length, repSerial256_not_mem,
   (sensor_id_truncation_u8 serialsW (repSerial 256) dz (fun _ => 1) (fun i _ => i)
      serialsW_nodup serialsW_length repSerial256_not_mem).2.2.2.1⟩

/-! ## Claim C4: send failure aborts the process -/

/-- Claim C4 (code bug in the source): every send_to result is unwrapped,
so a single failed send panics and aborts the worker instead of being
non-fatal as the spec requires; here the very first announce send of a
fresh registration fails and the invocation ends in a panic (none). -/
theorem send_failure_panics :
    parse_message_sends (.Connected ⟨"A", dz⟩) [] (fun _ => 0) (fun i _ => i)
      (fun _ => false) = none := rfl

/-- Cross-check: with every send succeeding, the fallible variant agrees
with parse_message. -/
theorem parse_message_sends_allOk (msg : ChannelInfo) (devices : List (String × Device))
    (settings : WranglerSettings) (update : Imu → JoyconAxisData → Imu) :
    parse_message_sends msg devices settings update (fun _ => true) =
      some (parse_message msg devices settings update) := by
  cases msg with
  | Connected info =>
    by_cases h : containsDevice devices info.serial_number = true
    · simp [parse_message_sends, parse_message, h]
    · simp [parse_message_sends, parse_message, h]
  | Data data =>
    cases hf : findDevice devices data.serial_number with
    | none => simp [parse_message_sends, parse_message, hf]
    | some dev => simp [parse_message_sends, parse_message, hf]

/-! ## Claims C2 and C7: mount rotation compensation -/

/-- Counterexample to claim C2 as stated: the source composes only when
the offset is strictly positive, so for the nonzero offset -180 the raw
orientation (here the identity) is sent unchanged, while the claimed
composed orientation differs from it. -/
theorem negative_offset_not_composed :
    (parse_message (.Data ⟨"A", (⟨0, 0, 0⟩, ⟨0, 0, 0⟩, ⟨0, 0, 0⟩)⟩)
        [("A", ⟨⟨1⟩, dz, 0⟩)] (fun _ => (-180 : Int)) (fun i _ => i)).2.head? =
      some (Packet.rotationData 0 0 1 1 0) ∧
    (1 : Quaternion ℝ) * zRotQuat (toRadians (-180)) ≠ 1 := by
  constructor
  · rfl
  · intro h
    rw [one_mul] at h
    have h2 := congrArg Quaternion.re h
    have h3 : toRadians (-180) / 2 = -(Real.pi / 2) := by
      simp only [toRadians]
      push_cast
      ring
    simp only [zRotQuat, Quaternion.one_re, h3, Real.cos_neg, Real.cos_pi_div_two] at h2
    norm_num at h2

/-- Claim C2 (amended: the composition happens exactly for strictly
positive offsets, and the offset quaternion is the right factor of the
product): for a Data message of a known device with positive configured
offset, the RotationData packet carries raw * zRotQuat(offset in
radians). -/
theorem positive_offset_composes_zrot (devices : List (String × Device)) (s : String)
    (dev : Device) (a b c : JoyconAxisData) (stg : WranglerSettings)
    (upd : Imu → JoyconAxisData → Imu) (hf : findDevice devices s = some dev)
    (hpos : 0 < stg.joycon_rotation_get s) :
    (parse_message (.Data ⟨s, (a, b, c)⟩) devices stg upd).2.head? =
      some (Packet.rotationData 0 dev.id 1
        ((upd (upd (upd dev.imu a) b) c).rotation *
          zRotQuat (toRadians (stg.joycon_rotation_get s))) 0) := by
  simp only [parse_message, hf]
  simp [rotatedQuat, hpos]

/-- Witness for C2 (amended) at a concrete input: offset 90 on a known
device. -/
theorem positive_offset_composes_zrot_witness :
    findDevice [("A", (⟨⟨1⟩, dz, 0⟩ : Device))] "A" = some ⟨⟨1⟩, dz, 0⟩ ∧
    (0 : Int) < WranglerSettings.joycon_rotation_get (fun _ => (90 : Int)) "A" ∧
    (parse_message (.Data ⟨"A", (⟨0, 0, 0⟩, ⟨0, 0, 0⟩, ⟨0, 0, 0⟩)⟩)
        [("A", ⟨⟨1⟩, dz, 0⟩)] (fun _ => (90 : Int)) (fun i _ => i)).2.head? =
      some (Packet.rotationData 0 (⟨⟨1⟩, dz, 0⟩ : Device).id 1
        (((fun (i : Imu) (_ : JoyconAxisData) => i) ((fun (i : Imu) (_ : JoyconAxisData) => i)
            ((fun (i : Imu) (_ : JoyconAxisData) => i) (⟨⟨1⟩, dz, 0⟩ : Device).imu
              ⟨0, 0, 0⟩) ⟨0, 0, 0⟩) ⟨0, 0, 0⟩).rotation *
          zRotQuat (toRadians (WranglerSettings.joycon_rotation_get (fun _ => (90 : Int)) "A"))) 0) :=
  ⟨rfl, by decide,
   positive_offset_composes_zrot [("A", ⟨⟨1⟩, dz, 0⟩)] "A" ⟨⟨1⟩, dz, 0⟩
     ⟨0, 0, 0⟩ ⟨0, 0, 0⟩ ⟨0, 0, 0⟩ (fun _ => (90 : Int)) (fun i _ => i) rfl (by decide)⟩

/-- Claim C7: with configured offset 0 the RotationData packet carries the
raw orientation quaternion unchanged, with no composition performed. -/
theorem zero_offset_orientation_exact (devices : List (String × Device)) (s : String)
    (dev : Device) (a b c : JoyconAxisData) (stg : WranglerSettings)
    (upd : Imu → JoyconAxisData → Imu) (hf : findDevice devices s = some dev)
    (h0 : stg.joycon_rotation_get s = 0) :
    (parse_message (.Data ⟨s, (a, b, c)⟩) devices stg upd).2.head? =
      some (Packet.rotationData 0 dev.id 1 ((upd (upd (upd dev.imu a) b) c).rotation) 0) := by
  simp only [parse_message, hf]
  simp [rotatedQuat, h0]

/-- Witness for C7 at a concrete input: offset 0 on a known device. -/
theorem zero_offset_orientation_exact_witness :
    findDevice [("A", (⟨⟨1⟩, dz, 0⟩ : Device))] "A" = some ⟨⟨1⟩, dz, 0⟩ ∧
    WranglerSettings.joycon_rotation_get (fun _ => (0 : Int)) "A" = 0 ∧
    (parse_message (.Data ⟨"A", (⟨0, 0, 0⟩, ⟨0, 0, 0⟩, ⟨0, 0, 0⟩)⟩)
        [("A", ⟨⟨1⟩, dz, 0⟩)] (fun _ => (0 : Int)) (fun i _ => i)).2.head? =
      some (Packet.rotationData 0 (⟨⟨1⟩, dz, 0⟩ : Device).id 1
        (((fun (i : Imu) (_ : JoyconAxisData) => i) ((fun (i : Imu) (_ : JoyconAxisData) => i)
            ((fun (i : Imu) (_ : JoyconAxisData) => i) (⟨⟨1⟩, dz, 0⟩ : Device).imu
              ⟨0, 0, 0⟩) ⟨0, 0, 0⟩) ⟨0, 0, 0⟩).rotation) 0) :=
  ⟨rfl, rfl,
   zero_offset_orientation_exact [("A", ⟨⟨1⟩, dz, 0⟩)] "A" ⟨⟨1⟩, dz, 0⟩
     ⟨0, 0, 0⟩ ⟨0, 0, 0⟩ ⟨0, 0, 0⟩ (fun _ => (0 : Int)) (fun i _ => i) rfl rfl⟩

/-! ## Claim C8: gravity cancellation at offset 0 -/

/-- Claim C8: if the raw acceleration sample equals the gravity vector
that calc_acceleration derives from the orientation quaternion, and the
mount offset is 0 (so rad_rotation = toRadians 0), the resulting linear
acceleration is exactly the zero vector in exact real arithmetic, hence
its magnitude is 0. -/
theorem gravity_cancellation_zero_offset (q : Quaternion ℝ) (a : JoyconAxisData)
    (hx : a.accel_x = (gravity q).x) (hy : a.accel_y = (gravity q).y)
    (hz : a.accel_z = (gravity q).z) :
    calc_acceleration q a (toRadians 0) = ⟨0, 0, 0⟩ ∧
    (calc_acceleration q a (toRadians 0)).magnitude = 0 := by
  have h0 : toRadians 0 = 0 := by
    simp [toRadians]
  have h1 : calc_acceleration q a (toRadians 0) = ⟨0, 0, 0⟩ := by
    simp [calc_acceleration, h0, hx, hy, hz, Real.cos_zero, Real.sin_zero]
  refine ⟨h1, ?_⟩
  rw [h1]
  simp [Xyz.magnitude]

/-- Witness for C8 at a concrete input: the identity orientation and the
sample built from its own derived gravity vector. -/
theorem gravity_cancellation_zero_offset_witness :
    (⟨(gravity 1).x, (gravity 1).y, (gravity 1).z⟩ : JoyconAxisData).accel_x = (gravity 1).x ∧
    (⟨(gravity 1).x, (gravity 1).y, (gravity 1).z⟩ : JoyconAxisData).accel_y = (gravity 1).y ∧
    (⟨(gravity 1).x, (gravity 1).y, (gravity 1).z⟩ : JoyconAxisData).accel_z = (gravity 1).z ∧
    calc_acceleration 1 ⟨(gravity 1).x, (gravity 1).y, (gravity 1).z⟩ (toRadians 0) =
      ⟨0, 0, 0⟩ :=
  ⟨rfl, rfl, rfl,
   (gravity_cancellation_zero_offset 1 ⟨(gravity 1).x, (gravity 1).y, (gravity 1).z⟩
      rfl rfl rfl).1⟩

/-! ## Claim C5: datagram drain behavior -/

/-- Claim C5: for every datagram processed by the drain loop, the
connected flag is set to true regardless of whether the bytes parse; and
exactly when the receive buffer parses as a Ping packet, the last
keep-alive timestamp is reset and precisely the received bytes
(buf[0..len], the datagram itself) are echoed back. -/
theorem drain_datagram_behavior (connected : Bool) (last_ping now : Nat)
    (buf d : List Nat) (parsePing : List Nat → Bool) :
    (drainStep connected last_ping now buf parsePing d).1 = true ∧
    (parsePing (writeBuf d buf) = true →
      (drainStep connected last_ping now buf parsePing d).2.1 = now ∧
      (drainStep connected last_ping now buf parsePing d).2.2.2 = some d) ∧
    (parsePing (writeBuf d buf) = false →
      (drainStep connected last_ping now buf parsePing d).2.1 = last_ping ∧
      (drainStep connected last_ping now buf parsePing d).2.2.2 = none) := by
  have htake : (writeBuf d buf).take d.length = d := by
    simp [writeBuf]
  refine ⟨?_, ?_, ?_⟩
  · by_cases h : parsePing (writeBuf d buf) = true
    · simp [drainStep, h]
    · simp [drainStep, h]
  · intro h
    simp [drainStep, h, htake]
  · intro h
    simp [drainStep, h]

/-- Witness for C5 at a concrete input: a parser that accepts everything,
a two byte datagram over a stale buffer; the echo is exactly the
datagram. -/
theorem drain_datagram_behavior_witness :
    (fun _ => true : List Nat → Bool) (writeBuf [7, 9] [0, 0, 0]) = true ∧
    (drainStep false 0 42 [0, 0, 0] (fun _ => true) [7, 9]).2.2.2 = some [7, 9] :=
  ⟨rfl, ((drain_datagram_behavior false 0 42 [0, 0, 0] [7, 9] (fun _ => true)).2.1 rfl).2⟩

/-! ## Claims C3, C6, C9: loop iteration properties -/

theorem handshakeFires_iff (st : LoopState) (now : Nat) :
    handshakeFires st now = true ↔ (st.connected = false ∧ 3 ≤ now - st.last_handshake) := by
  simp [handshakeFires, Bool.and_eq_true, Bool.not_eq_true']

theorem sorted_sortById (l : List Device) :
    ((sortById l).map Device.id).Sorted (· ≤ ·) := by
  have h : (sortById l).Sorted devLE := List.sorted_insertionSort devLE l
  rw [List.Sorted, List.pairwise_map]
  exact h

/-- Claim C6: the handshake broadcast plus the full re-announce of all
known devices, in ascending sensor id order, happens in an iteration
exactly when the state is Disconnected and at least 3 seconds passed
since the last handshake attempt (the attempt timestamp is then set to
now, so two broadcasts are always at least 3 seconds apart); and after
the drain, the state is Connected exactly when it was Connected at that
point and less than 3 seconds passed since the last keep-alive ping. -/
theorem handshake_and_keepalive_timing (update : Imu → JoyconAxisData → Imu)
    (euler : Imu → ℝ × ℝ × ℝ) (parsePing : List Nat → Bool)
    (hashOrder : List (String × Device) → List (String × Device))
    (settings : WranglerSettings) (st : LoopState) (now : Nat)
    (datagrams : List (List Nat)) (msgs : List ChannelInfo) :
    ((iterate update euler parsePing hashOrder settings st now datagrams msgs).2.announce ≠ []
      ↔ (st.connected = false ∧ 3 ≤ now - st.last_handshake)) ∧
    ((iterate update euler parsePing hashOrder settings st now datagrams msgs).2.announce ≠ [] →
      (iterate update euler parsePing hashOrder settings st now datagrams msgs).2.announce =
        slime_handshake :: (sortById ((hashOrder st.devices).map Prod.snd)).map Device.handshake) ∧
    ((sortById ((hashOrder st.devices).map Prod.snd)).map Device.id).Sorted (· ≤ ·) ∧
    ((iterate update euler parsePing hashOrder settings st now datagrams msgs).2.announce ≠ [] →
      (iterate update euler parsePing hashOrder settings st now datagrams msgs).1.last_handshake
        = now) ∧
    ((iterate update euler parsePing hashOrder settings st now datagrams msgs).2.announce = [] →
      (iterate update euler parsePing hashOrder settings st now datagrams msgs).1.last_handshake
        = st.last_handshake) ∧
    ((iterate update euler parsePing hashOrder settings st now datagrams msgs).1.connected = true
      ↔ ((drainAll st.connected st.last_ping now st.buf parsePing datagrams).1 = true ∧
         now - (drainAll st.connected st.last_ping now st.buf parsePing datagrams).2.1 < 3)) ∧
    ((hashOrder st.devices).Perm st.devices →
      (sortById ((hashOrder st.devices).map Prod.snd)).Perm (st.devices.map Prod.snd)) := by
  rcases hda : drainAll st.connected st.last_ping now st.buf parsePing datagrams with
    ⟨c2, lp2, b2, es⟩
  rcases hpm : processMessages msgs st.devices settings update with ⟨devs2, dps⟩
  simp only [iterate, hda, hpm]
  by_cases hfire : handshakeFires st now = true
  · have hcond := (handshakeFires_iff st now).mp hfire
    refine ⟨by simp [hfire, hcond], by simp [hfire], sorted_sortById _, by simp [hfire],
      ?_, ?_, ?_⟩
    · intro h
      simp [hfire] at h
    · by_cases hc : c2 = true
      · by_cases ht : 3 ≤ now - lp2
        · simp [hc, ht] <;> omega
        · simp [hc, ht] <;> omega
      · simp only [Bool.not_eq_true] at hc
        simp [hc]
    · intro hp
      simp only [sortById]
      exact (List.perm_insertionSort devLE _).trans (hp.map Prod.snd)
  · have hcond := (handshakeFires_iff st now).not.mp hfire
    refine ⟨by simp [hfire, hcond], by simp [hfire], sorted_sortById _, by simp [hfire],
      by simp [hfire], ?_, ?_⟩
    · by_cases hc : c2 = true
      · by_cases ht : 3 ≤ now - lp2
        · simp [hc, ht] <;> omega
        · simp [hc, ht] <;> omega
      · simp only [Bool.not_eq_true] at hc
        simp [hc]
    · intro hp
      simp only [sortById]
      exact (List.perm_insertionSort devLE _).trans (hp.map Prod.snd)

/-- Witness for C6 at a concrete input: a disconnected state whose last
handshake attempt is 5 seconds old fires the announce. -/
theorem handshake_and_keepalive_timing_witness :
    (iterate (fun i _ => i) (fun _ => ((0 : ℝ), (0 : ℝ), (0 : ℝ))) (fun _ => false)
        (fun l => l) (fun _ => 0) ⟨[], false, 0, 0, []⟩ 5 [] []).2.announce ≠ [] :=
  (handshake_and_keepalive_timing (fun i _ => i) (fun _ => ((0 : ℝ), (0 : ℝ), (0 : ℝ)))
      (fun _ => false) (fun l => l) (fun _ => 0) ⟨[], false, 0, 0, []⟩ 5 [] []).1.mpr
    ⟨rfl, by decide⟩

/-- Counterexample to claim C3 as stated: an iteration whose protocol
state is (and stays) Disconnected publishes a snapshot whose entry still
reports connected = true, because the source hardcodes true. -/
theorem snapshot_connected_true_when_disconnected :
    ((iterate (fun i _ => i) (fun _ => ((0 : ℝ), (0 : ℝ), (0 : ℝ))) (fun _ => false)
        (fun l => l) (fun _ => 0) ⟨[("A", ⟨⟨1⟩, dz, 0⟩)], false, 10, 0, []⟩ 10 []
        [.Data ⟨"Z", (⟨0, 0, 0⟩, ⟨0, 0, 0⟩, ⟨0, 0, 0⟩)⟩]).2.snapshot.map
          (fun l => l.map (fun j => j.connected))) = some [true] ∧
    (iterate (fun i _ => i) (fun _ => ((0 : ℝ), (0 : ℝ), (0 : ℝ))) (fun _ => false)
        (fun l => l) (fun _ => 0) ⟨[("A", ⟨⟨1⟩, dz, 0⟩)], false, 10, 0, []⟩ 10 []
        [.Data ⟨"Z", (⟨0, 0, 0⟩, ⟨0, 0, 0⟩, ⟨0, 0, 0⟩)⟩]).1.connected = false :=
  ⟨rfl, rfl⟩

/-- Claim C3 (amended: every entry of every published snapshot carries
connected = true unconditionally, regardless of the process-wide
connection state). -/
theorem snapshot_connected_always_true (update : Imu → JoyconAxisData → Imu)
    (euler : Imu → ℝ × ℝ × ℝ) (parsePing : List Nat → Bool)
    (hashOrder : List (String × Device) → List (String × Device))
    (settings : WranglerSettings) (st : LoopState) (now : Nat)
    (datagrams : List (List Nat)) (msgs : List ChannelInfo) (l : List JoyconStatus)
    (h : (iterate update euler parsePing hashOrder settings st now datagrams msgs).2.snapshot
      = some l) :
    ∀ j ∈ l, j.connected = true := by
  rcases hda : drainAll st.connected st.last_ping now st.buf parsePing datagrams with
    ⟨c2, lp2, b2, es⟩
  rcases hpm : processMessages msgs st.devices settings update with ⟨devs2, dps⟩
  simp only [iterate, hda, hpm] at h
  by_cases hm : msgs.isEmpty = true
  · simp [hm] at h
  · simp only [Bool.not_eq_true] at hm
    simp only [hm, Bool.false_eq_true, if_false] at h
    obtain rfl : l = buildStatuses euler settings (hashOrder devs2) := (Option.some.inj h).symm
    intro j hj
    obtain ⟨p, _, rfl⟩ := List.mem_map.mp hj
    rfl

/-- Witness for C3 (amended) at a concrete input. -/
theorem snapshot_connected_always_true_witness :
    (iterate (fun i _ => i) (fun _ => ((0 : ℝ), (0 : ℝ), (0 : ℝ))) (fun _ => false)
        (fun l => l) (fun _ => 0) ⟨[("D", ⟨⟨1⟩, dz, 0⟩)], true, 0, 5, []⟩ 5 []
        [.Data ⟨"Z", (⟨0, 0, 0⟩, ⟨0, 0, 0⟩, ⟨0, 0, 0⟩)⟩]).2.snapshot =
      some (buildStatuses (fun _ => ((0 : ℝ), (0 : ℝ), (0 : ℝ))) (fun _ => 0)
        [("D", ⟨⟨1⟩, dz, 0⟩)]) ∧
    ∀ j ∈ buildStatuses (fun _ => ((0 : ℝ), (0 : ℝ), (0 : ℝ))) (fun _ => 0)
        [("D", (⟨⟨1⟩, dz, 0⟩ : Device))], j.connected = true :=
  ⟨rfl,
   snapshot_connected_always_true (fun i _ => i) (fun _ => ((0 : ℝ), (0 : ℝ), (0 : ℝ)))
     (fun _ => false) (fun l => l) (fun _ => 0) ⟨[("D", ⟨⟨1⟩, dz, 0⟩)], true, 0, 5, []⟩ 5 []
     [.Data ⟨"Z", (⟨0, 0, 0⟩, ⟨0, 0, 0⟩, ⟨0, 0, 0⟩)⟩] _ rfl⟩

/-- Counterexample to claim C9 as stated: with first-seen order A then B
(ids 0 then 1), one legitimate hash map iteration order (here reversal,
any order is permitted by the container) makes the published snapshot
list B before A, so the snapshot is not in first-seen ascending id
order. -/
theorem snapshot_order_not_first_seen :
    keys (registerAll ["A", "B"] []) = ["A", "B"] ∧
    (registerAll ["A", "B"] []).map (fun p => p.2.id) = [0, 1] ∧
    ((iterate (fun i _ => i) (fun _ => ((0 : ℝ), (0 : ℝ), (0 : ℝ))) (fun _ => false)
        List.reverse (fun _ => 0) ⟨registerAll ["A", "B"] [], true, 0, 5, []⟩ 5 []
        [.Data ⟨"Z", (⟨0, 0, 0⟩, ⟨0, 0, 0⟩, ⟨0, 0, 0⟩)⟩]).2.snapshot.map
          (fun l => l.map (fun j => j.serial_number))) = some ["B", "A"] ∧
    (["B", "A"] : List String) ≠ ["A", "B"] :=
  ⟨rfl, rfl, rfl, by decide⟩

/-- Claim C9 (amended: snapshot entries appear in the hash map's
unspecified iteration order, a permutation of the registry contents; the
multiset of entries is that of the first-seen registry, but no
deterministic first-seen ordering is guaranteed). -/
theorem snapshot_order_hashmap_permutation (update : Imu → JoyconAxisData → Imu)
    (euler : Imu → ℝ × ℝ × ℝ) (parsePing : List Nat → Bool)
    (hashOrder : List (String × Device) → List (String × Device))
    (settings : WranglerSettings) (st : LoopState) (now : Nat)
    (datagrams : List (List Nat)) (msgs : List ChannelInfo) (hm : msgs ≠ []) :
    (iterate update euler parsePing hashOrder settings st now datagrams msgs).2.snapshot =
      some (buildStatuses euler settings
        (hashOrder (processMessages msgs st.devices settings update).1)) ∧
    ((hashOrder (processMessages msgs st.devices settings update).1).Perm
        (processMessages msgs st.devices settings update).1 →
      (buildStatuses euler settings
          (hashOrder (processMessages msgs st.devices settings update).1)).Perm
        (buildStatuses euler settings (processMessages msgs st.devices settings update).1)) := by
  constructor
  · rcases hda : drainAll st.connected st.last_ping now st.buf parsePing datagrams with
      ⟨c2, lp2, b2, es⟩
    rcases hpm : processMessages msgs st.devices settings update with ⟨devs2, dps⟩
    have him : msgs.isEmpty = false := by
      cases msgs with
      | nil => exact absurd rfl hm
      | cons a as => rfl
    simp only [iterate, hda, hpm, him, Bool.false_eq_true, if_false]
  · intro hperm
    simp only [buildStatuses]
    exact hperm.map _

/-- Witness for C9 (amended) at a concrete input, with reversal as the
hash map iteration order. -/
theorem snapshot_order_hashmap_permutation_witness :
    ([ChannelInfo.Data ⟨"Z", (⟨0, 0, 0⟩, ⟨0, 0, 0⟩, ⟨0, 0, 0⟩)⟩] ≠ ([] : List ChannelInfo)) ∧
    (iterate (fun i _ => i) (fun _ => ((0 : ℝ), (0 : ℝ), (0 : ℝ))) (fun _ => false)
        List.reverse (fun _ => 0) ⟨[("C", ⟨⟨1⟩, dz, 0⟩)], true, 0, 5, []⟩ 5 []
        [ChannelInfo.Data ⟨"Z", (⟨0, 0, 0⟩, ⟨0, 0, 0⟩, ⟨0, 0, 0⟩)⟩]).2.snapshot =
      some (buildStatuses (fun _ => ((0 : ℝ), (0 : ℝ), (0 : ℝ))) (fun _ => 0)
        (List.reverse (processMessages [ChannelInfo.Data ⟨"Z", (⟨0, 0, 0⟩, ⟨0, 0, 0⟩, ⟨0, 0, 0⟩)⟩]
          [("C", ⟨⟨1⟩, dz, 0⟩)] (fun _ => 0) (fun i _ => i)).1)) ∧
    (buildStatuses (fun _ => ((0 : ℝ), (0 : ℝ), (0 : ℝ))) (fun _ => 0)
        (List.reverse (processMessages [ChannelInfo.Data ⟨"Z", (⟨0, 0, 0⟩, ⟨0, 0, 0⟩, ⟨0, 0, 0⟩)⟩]
          [("C", ⟨⟨1⟩, dz, 0⟩)] (fun _ => 0) (fun i _ => i)).1)).Perm
      (buildStatuses (fun _ => ((0 : ℝ), (0 : ℝ), (0 : ℝ))) (fun _ => 0)
        (processMessages [ChannelInfo.Data ⟨"Z", (⟨0, 0, 0⟩, ⟨0, 0, 0⟩, ⟨0, 0, 0⟩)⟩]
          [("C", ⟨⟨1⟩, dz, 0⟩)] (fun _ => 0) (fun i _ => i)).1) := by
  have hne : [ChannelInfo.Data ⟨"Z", (⟨0, 0, 0⟩, ⟨0, 0, 0⟩, ⟨0, 0, 0⟩)⟩] ≠
      ([] : List ChannelInfo) := by simp
  have h := snapshot_order_hashmap_permutation (fun i _ => i)
    (fun _ => ((0 : ℝ), (0 : ℝ), (0 : ℝ))) (fun _ => false) List.reverse (fun _ => 0)
    ⟨[("C", ⟨⟨1⟩, dz, 0⟩)], true, 0, 5, []⟩ 5 []
    [ChannelInfo.Data ⟨"Z", (⟨0, 0, 0⟩, ⟨0, 0, 0⟩, ⟨0, 0, 0⟩)⟩] hne
  exact ⟨hne, h.1, h.2 (List.reverse_perm _)⟩
